import Mathlib

set_option maxRecDepth 4000

/-!
Verification of the `ai-context-manager` context-assembly engine.

The repository snapshot under study contains the callers of the engine
(test scripts, benchmark drivers, demo applications) but not the
`ai_context_manager` package itself.  Where a definition embeds code that
is present in the snapshot (`test_ollama_connectivity.py`,
`demo_apps/research_assistant/app.py`) it is translated directly from
that source.  The engine, summarizer, registry and agent-facade
definitions are modelled from the specification, as marked in their
doc comments.
-/

/-- Modelled from the spec: the Component data model (§3): the polymorphic
unit of memory, exposing a unique id, a tag set, renderable text, a
feedback score and a creation/update timestamp.  Scores are rationals
(shallow embedding of Python floats); timestamps are naturals. -/
structure Component where
  id : String
  tags : List String
  text : String
  score : ℚ
  createdAt : ℕ
deriving DecidableEq, Repr

/-- Modelled from the spec: the token estimator (§4.5 step 3), "an
estimated token unit, a monotone function of character/word length";
the conventional four-characters-per-token estimate. -/
def estimateTokens (s : String) : ℕ :=
  s.data.length / 4

/-- Modelled from the spec: the naive summarizer (§4.4), "deterministic
truncation/extraction, never fails": truncate to the character budget
corresponding to `target` estimated tokens. -/
def naiveSummarize (text : String) (target : ℕ) : String :=
  String.mk (text.data.take (4 * target))

/-- Concatenation of the selected renderings, in order (§4.5 return value). -/
def joinParts (ps : List String) : String :=
  String.mk ((ps.map String.data).flatten)

/-- Total estimated token count of a list of renderings: the running
token count maintained by the selection walk (§4.5 step 3). -/
def sumTokens (ps : List String) : ℕ :=
  (ps.map estimateTokens).sum

/-- Modelled from the spec: step 1 of the selection algorithm (§4.5):
filter the registry to candidates matching the tag filter (a component
matches when its tag set intersects the filter set), or all components
when no filter is given. -/
def candidates (tags : Option (List String)) (reg : List Component) : List Component :=
  match tags with
  | none => reg
  | some ts => reg.filter (fun c => c.tags.any (fun t => ts.contains t))

/-- Modelled from the spec: the ranking relation (§4.2): feedback score
descending; ties broken by the most recently created/updated component,
then by insertion order (the natural-number index attached by `List.enum`). -/
def rankLE (a b : ℕ × Component) : Prop :=
  b.2.score < a.2.score ∨
    (a.2.score = b.2.score ∧
      (b.2.createdAt < a.2.createdAt ∨
        (a.2.createdAt = b.2.createdAt ∧ a.1 ≤ b.1)))

instance : DecidableRel rankLE := by
  intro a b
  unfold rankLE
  infer_instance

instance : IsTotal (ℕ × Component) rankLE := by
  constructor
  intro a b
  rcases lt_trichotomy a.2.score b.2.score with hs | hs | hs
  · exact Or.inr (Or.inl hs)
  · rcases lt_trichotomy a.2.createdAt b.2.createdAt with ht | ht | ht
    · exact Or.inr (Or.inr ⟨hs.symm, Or.inl ht⟩)
    · rcases Nat.le_total a.1 b.1 with hi | hi
      · exact Or.inl (Or.inr ⟨hs, Or.inr ⟨ht, hi⟩⟩)
      · exact Or.inr (Or.inr ⟨hs.symm, Or.inr ⟨ht.symm, hi⟩⟩)
    · exact Or.inl (Or.inr ⟨hs, Or.inl ht⟩)
  · exact Or.inl (Or.inl hs)

instance : IsTrans (ℕ × Component) rankLE := by
  constructor
  intro a b c hab hbc
  rcases hab with h1 | ⟨h1, h2⟩
  · rcases hbc with h3 | ⟨h3, _⟩
    · exact Or.inl (lt_trans h3 h1)
    · exact Or.inl (h3 ▸ h1)
  · rcases hbc with h3 | ⟨h3, h4⟩
    · exact Or.inl (lt_of_lt_of_le h3 (le_of_eq h1.symm))
    · refine Or.inr ⟨h1.trans h3, ?_⟩
      rcases h2 with h2 | ⟨h2, h5⟩
      · rcases h4 with h4 | ⟨h4, _⟩
        · exact Or.inl (lt_trans h4 h2)
        · exact Or.inl (h4 ▸ h2)
      · rcases h4 with h4 | ⟨h4, h6⟩
        · exact Or.inl (lt_of_lt_of_le h4 (le_of_eq h2.symm))
        · exact Or.inr ⟨h2.trans h4, le_trans h5 h6⟩

/-- Modelled from the spec: step 2 of the selection algorithm (§4.5):
rank candidates by feedback score descending, with the deterministic
tie-break of §4.2 (recency, then insertion order). -/
def rankComponents (l : List Component) : List Component :=
  (l.enum.insertionSort rankLE).map Prod.snd

/-- Modelled from the spec: steps 3-5 of the selection algorithm (§4.5):
walk the ranked renderings keeping a running budget; append a rendering
that fits; when one does not fit and summarization is allowed, summarize
to the remaining budget and append the summary when it fits, otherwise
skip; stop at budget zero or at the end of the list.  `summFn` is the
configured summarizer. -/
def selectParts (summFn : String → ℕ → String) (allow : Bool) :
    ℕ → List String → List String
  | _, [] => []
  | budget, t :: ts =>
    if budget = 0 then []
    else if estimateTokens t ≤ budget then
      t :: selectParts summFn allow (budget - estimateTokens t) ts
    else if allow then
      if estimateTokens (summFn t budget) ≤ budget then
        summFn t budget ::
          selectParts summFn allow (budget - estimateTokens (summFn t budget)) ts
      else selectParts summFn allow budget ts
    else selectParts summFn allow budget ts

/-- Modelled from the spec: `get_context` (§4.5): filter, rank, select
within the token budget, and return the concatenation of the selected
(possibly summarized) renderings in ranked order. -/
def get_context (summFn : String → ℕ → String) (reg : List Component)
    (include_tags : Option (List String)) (token_budget : ℕ)
    (summarize_if_needed : Bool) : String :=
  joinParts (selectParts summFn summarize_if_needed token_budget
    ((rankComponents (candidates include_tags reg)).map Component.text))

lemma selectParts_sum_le (summFn : String → ℕ → String) (allow : Bool) :
    ∀ (b : ℕ) (ts : List String), sumTokens (selectParts summFn allow b ts) ≤ b := by
  intro b ts
  induction ts generalizing b with
  | nil => simp [selectParts, sumTokens]
  | cons t ts ih =>
    unfold selectParts
    by_cases h0 : b = 0
    · simp [h0, sumTokens]
    · simp only [if_neg h0]
      by_cases h1 : estimateTokens t ≤ b
      · simp only [if_pos h1, sumTokens, List.map_cons, List.sum_cons]
        have h2 := ih (b - estimateTokens t)
        unfold sumTokens at h2
        omega
      · simp only [if_neg h1]
        by_cases h3 : allow
        · simp only [if_pos h3]
          by_cases h4 : estimateTokens (summFn t b) ≤ b
          · simp only [if_pos h4, sumTokens, List.map_cons, List.sum_cons]
            have h5 := ih (b - estimateTokens (summFn t b))
            unfold sumTokens at h5
            omega
          · simp only [if_neg h4]
            exact ih b
        · simp only [if_neg h3]
          exact ih b

lemma sumTokens_eq (ps : List String) :
    sumTokens ps = (ps.map (fun s => s.data.length / 4)).sum := rfl

lemma length_joinParts (ps : List String) :
    (joinParts ps).data.length = (ps.map (fun s => s.data.length)).sum := by
  unfold joinParts
  rw [show (String.mk ((ps.map String.data).flatten)).data =
    (ps.map String.data).flatten from rfl]
  rw [List.length_flatten, List.map_map]
  rfl

lemma estimateTokens_joinParts_le (ps : List String) :
    estimateTokens (joinParts ps) ≤ sumTokens ps + ps.length := by
  have hsum : ∀ qs : List String, (qs.map (fun s => s.data.length)).sum ≤
      4 * (qs.map (fun s => s.data.length / 4)).sum + 3 * qs.length := by
    intro qs
    induction qs with
    | nil => simp
    | cons p ps ih =>
      simp only [List.map_cons, List.sum_cons, List.length_cons]
      omega
  have h := hsum ps
  rw [sumTokens_eq]
  unfold estimateTokens
  rw [length_joinParts]
  omega

/-- C1.  For every summarizer, registry state, tag filter and token
budget B, `get_context` returns exactly the concatenation, in ranked
order, of the selected (possibly summarized) component renderings; the
running token count of the selection is at most B; and the estimated
token length of the returned text exceeds B by at most the bounded
rounding error of the estimator (strictly less than one token per
selected rendering). -/
theorem get_context_within_budget (summFn : String → ℕ → String)
    (reg : List Component) (tags : Option (List String)) (B : ℕ) (allow : Bool) :
    get_context summFn reg tags B allow =
      joinParts (selectParts summFn allow B
        ((rankComponents (candidates tags reg)).map Component.text)) ∧
    sumTokens (selectParts summFn allow B
      ((rankComponents (candidates tags reg)).map Component.text)) ≤ B ∧
    estimateTokens (get_context summFn reg tags B allow) ≤
      B + (selectParts summFn allow B
        ((rankComponents (candidates tags reg)).map Component.text)).length := by
  refine ⟨rfl, selectParts_sum_le summFn allow B _, ?_⟩
  have h := estimateTokens_joinParts_le (selectParts summFn allow B
    ((rankComponents (candidates tags reg)).map Component.text))
  have h2 := selectParts_sum_le summFn allow B
    ((rankComponents (candidates tags reg)).map Component.text)
  unfold get_context
  omega

/-- Modelled from the spec: summarizer availability (§3 SummarizerStatus):
`unknown`/UNCHECKED before the first probe, then AVAILABLE or UNAVAILABLE. -/
inductive Availability where
  | unchecked
  | available
  | unavailable
deriving DecidableEq, Repr

/-- Modelled from the spec: the mutable part of SummarizerStatus (§3):
current availability and the timestamp of the last health check. -/
structure SummarizerStatus where
  availability : Availability
  lastCheck : Option ℕ
deriving DecidableEq, Repr

/-- Outcome of one attempt against the remote LLM endpoint, as seen by
the summarizer: either a summary text, or a failure (connection error or
timeout). -/
inductive RemoteOutcome where
  | ok (text : String)
  | failure
deriving DecidableEq, Repr

/-- Errors a summarization backend can raise. -/
inductive SummarizerError where
  | backendFailure
deriving DecidableEq, Repr

/-- The LLM-backed summarization attempt: fallible. -/
def attemptLLM (remote : RemoteOutcome) : Except SummarizerError String :=
  match remote with
  | .ok text => .ok text
  | .failure => .error .backendFailure

/-- Result of one `auto_fallback` summarization call: the returned text,
the summarizer status after the call, and whether a health probe (an
actual attempt against the remote endpoint) was performed. -/
structure SummarizeResult where
  output : String
  status : SummarizerStatus
  probed : Bool
deriving DecidableEq, Repr

/-- Whether `now` still falls inside the backoff window that started at
the last recorded health-check failure. -/
def withinBackoff (backoff : ℕ) (st : SummarizerStatus) (now : ℕ) : Prop :=
  match st.lastCheck with
  | some t => now < t + backoff
  | none => False

instance (backoff : ℕ) (st : SummarizerStatus) (now : ℕ) :
    Decidable (withinBackoff backoff st now) := by
  unfold withinBackoff
  cases st.lastCheck <;> infer_instance

/-- Modelled from the spec: one summarization request in `auto_fallback`
mode (§4.4).  If the state is UNAVAILABLE and the backoff window has not
elapsed, skip the probe and return the naive summary with the status
unchanged.  Otherwise attempt the LLM-backed summarizer: on success
return its output and mark AVAILABLE; on failure or timeout mark
UNAVAILABLE (starting a new backoff window) and fall back within the
same call to the naive summarizer.  The `Except` result type embeds the
possibility of an escaping exception; the auto-fallback contract is that
the error constructor is never produced. -/
def auto_fallback_summarize (backoff : ℕ) (st : SummarizerStatus) (now : ℕ)
    (remote : RemoteOutcome) (text : String) (target : ℕ) :
    Except SummarizerError SummarizeResult :=
  if st.availability = .unavailable ∧ withinBackoff backoff st now then
    .ok ⟨naiveSummarize text target, st, false⟩
  else
    match attemptLLM remote with
    | .ok out => .ok ⟨out, ⟨.available, some now⟩, true⟩
    | .error _ => .ok ⟨naiveSummarize text target, ⟨.unavailable, some now⟩, true⟩

/-- C2.  Every `auto_fallback` summarization call returns: for every
backoff configuration, summarizer state, time, remote-endpoint health,
input text and target length, the call produces `Except.ok` with a text
result — never an error; and when the remote endpoint fails, the result
is the naive summarizer's output and the degraded availability is
recorded in the status, not raised. -/
theorem auto_fallback_total (backoff : ℕ) (st : SummarizerStatus) (now : ℕ)
    (remote : RemoteOutcome) (text : String) (target : ℕ) :
    ∃ r : SummarizeResult,
      auto_fallback_summarize backoff st now remote text target = .ok r ∧
      (remote = .failure →
        r.output = naiveSummarize text target ∧
        r.status.availability = .unavailable) := by
  unfold auto_fallback_summarize
  by_cases h : st.availability = .unavailable ∧ withinBackoff backoff st now
  · refine ⟨⟨naiveSummarize text target, st, false⟩, by rw [if_pos h], ?_⟩
    intro _
    exact ⟨rfl, h.1⟩
  · rw [if_neg h]
    cases remote with
    | ok out =>
      exact ⟨⟨out, ⟨.available, some now⟩, true⟩, rfl, by intro hc; cases hc⟩
    | failure =>
      exact ⟨⟨naiveSummarize text target, ⟨.unavailable, some now⟩, true⟩,
        rfl, fun _ => ⟨rfl, rfl⟩⟩

/-- C2 witness: at a concrete unreachable endpoint the call succeeds with
the naive output and degraded status. -/
theorem auto_fallback_total_witness :
    ∃ r : SummarizeResult,
      auto_fallback_summarize 60 ⟨.unchecked, none⟩ 0 .failure "hello world" 2 = .ok r ∧
      (RemoteOutcome.failure = .failure →
        r.output = naiveSummarize "hello world" 2 ∧
        r.status.availability = .unavailable) :=
  auto_fallback_total 60 ⟨.unchecked, none⟩ 0 .failure "hello world" 2

/-- C6.  With the summarizer UNAVAILABLE and the backoff window since the
last failed probe not yet elapsed, two consecutive `auto_fallback`
summarization calls against an unreachable endpoint both skip the health
probe, both return the naive summarizer's output, availability stays
UNAVAILABLE, and the recorded last-check timestamp is not updated by the
second call. -/
theorem auto_fallback_backoff_skips_probe (backoff t0 now1 now2 : ℕ)
    (st : SummarizerStatus) (text1 text2 : String) (k1 k2 : ℕ)
    (hav : st.availability = .unavailable) (hlc : st.lastCheck = some t0)
    (hw1 : now1 < t0 + backoff) (hw2 : now2 < t0 + backoff) :
    ∃ r1 r2 : SummarizeResult,
      auto_fallback_summarize backoff st now1 .failure text1 k1 = .ok r1 ∧
      auto_fallback_summarize backoff r1.status now2 .failure text2 k2 = .ok r2 ∧
      r1.output = naiveSummarize text1 k1 ∧
      r2.output = naiveSummarize text2 k2 ∧
      r1.probed = false ∧ r2.probed = false ∧
      r2.status.availability = .unavailable ∧
      r2.status.lastCheck = some t0 := by
  have hwb : withinBackoff backoff st now1 := by
    unfold withinBackoff
    rw [hlc]
    exact hw1
  have hwb2 : withinBackoff backoff st now2 := by
    unfold withinBackoff
    rw [hlc]
    exact hw2
  refine ⟨⟨naiveSummarize text1 k1, st, false⟩,
    ⟨naiveSummarize text2 k2, st, false⟩, ?_, ?_, rfl, rfl, rfl, rfl, hav, hlc⟩
  · unfold auto_fallback_summarize
    rw [if_pos ⟨hav, hwb⟩]
  · unfold auto_fallback_summarize
    rw [if_pos ⟨hav, hwb2⟩]

/-- C6 witness: concrete instance with a failed probe recorded at time
100, backoff 60, and two calls at times 110 and 150. -/
theorem auto_fallback_backoff_skips_probe_witness :
    ∃ r1 r2 : SummarizeResult,
      auto_fallback_summarize 60 ⟨.unavailable, some 100⟩ 110 .failure "alpha" 1 = .ok r1 ∧
      auto_fallback_summarize 60 r1.status 150 .failure "beta" 1 = .ok r2 ∧
      r1.output = naiveSummarize "alpha" 1 ∧
      r2.output = naiveSummarize "beta" 1 ∧
      r1.probed = false ∧ r2.probed = false ∧
      r2.status.availability = .unavailable ∧
      r2.status.lastCheck = some 100 :=
  auto_fallback_backoff_skips_probe 60 100 110 150 ⟨.unavailable, some 100⟩
    "alpha" "beta" 1 1 rfl rfl (by omega) (by omega)

/-- Errors the component registry can raise (§7): id collision on
register without overwrite. -/
inductive RegistryError where
  | duplicateId
deriving DecidableEq, Repr

/-- Whether the registry holds a component with the given id. -/
def containsId (reg : List Component) (i : String) : Bool :=
  reg.any (fun c => c.id = i)

/-- Replace every component carrying `c.id` by `c` (last-write-wins on
the id, all other components untouched). -/
def replaceById (reg : List Component) (c : Component) : List Component :=
  reg.map (fun x => if x.id = c.id then c else x)

/-- Modelled from the spec: `register(component, overwrite)` (§4.1):
fails with DuplicateId when `overwrite = false` and the id exists;
otherwise inserts or replaces and returns the stored component. -/
def register (reg : List Component) (c : Component) (overwrite : Bool) :
    Except RegistryError (List Component × Component) :=
  if containsId reg c.id then
    if overwrite then .ok (replaceById reg c, c)
    else .error .duplicateId
  else .ok (reg ++ [c], c)

/-- C3.  `register` fails with DuplicateId exactly when `overwrite=false`
and the id already exists; with a fresh id it appends the component and
returns it as stored; with `overwrite=true` on an existing id it replaces:
in the resulting registry every component carrying the registered id is
the new component itself — never a merge of old and new. -/
theorem register_spec (reg : List Component) (c : Component) :
    (containsId reg c.id = true →
      register reg c false = .error .duplicateId) ∧
    (containsId reg c.id = false →
      register reg c false = .ok (reg ++ [c], c) ∧
      register reg c true = .ok (reg ++ [c], c)) ∧
    (containsId reg c.id = true →
      register reg c true = .ok (replaceById reg c, c) ∧
      ∀ x ∈ replaceById reg c, x.id = c.id → x = c) := by
  refine ⟨?_, ?_, ?_⟩
  · intro h
    unfold register
    rw [h]
    rfl
  · intro h
    unfold register
    rw [h]
    exact ⟨rfl, rfl⟩
  · intro h
    refine ⟨by unfold register; rw [h]; rfl, ?_⟩
    intro x hx hid
    unfold replaceById at hx
    rcases List.mem_map.mp hx with ⟨y, _, hy⟩
    by_cases hyc : y.id = c.id
    · rw [if_pos hyc] at hy
      exact hy.symm
    · rw [if_neg hyc] at hy
      rw [← hy] at hid
      exact absurd hid hyc

/-- C3 witness: a concrete registry where re-registering id "a" without
overwrite is rejected, a fresh id "b" is inserted, and overwriting id
"a" replaces the stored component. -/
theorem register_spec_witness :
    (containsId [⟨"a", [], "old", 1, 0⟩] "a" = true →
      register [⟨"a", [], "old", 1, 0⟩] ⟨"a", [], "new", 2, 1⟩ false =
        .error .duplicateId) ∧
    (containsId [⟨"a", [], "old", 1, 0⟩] "b" = false →
      register [⟨"a", [], "old", 1, 0⟩] ⟨"b", [], "fresh", 2, 1⟩ false =
        .ok ([⟨"a", [], "old", 1, 0⟩] ++ [⟨"b", [], "fresh", 2, 1⟩], ⟨"b", [], "fresh", 2, 1⟩) ∧
      register [⟨"a", [], "old", 1, 0⟩] ⟨"b", [], "fresh", 2, 1⟩ true =
        .ok ([⟨"a", [], "old", 1, 0⟩] ++ [⟨"b", [], "fresh", 2, 1⟩], ⟨"b", [], "fresh", 2, 1⟩)) ∧
    (containsId [⟨"a", [], "old", 1, 0⟩] "a" = true →
      register [⟨"a", [], "old", 1, 0⟩] ⟨"a", [], "new", 2, 1⟩ true =
        .ok (replaceById [⟨"a", [], "old", 1, 0⟩] ⟨"a", [], "new", 2, 1⟩, ⟨"a", [], "new", 2, 1⟩) ∧
      ∀ x ∈ replaceById [⟨"a", [], "old", 1, 0⟩] ⟨"a", [], "new", 2, 1⟩,
        x.id = "a" → x = ⟨"a", [], "new", 2, 1⟩) :=
  register_spec [⟨"a", [], "old", 1, 0⟩] ⟨"a", [], "new", 2, 1⟩ |>.imp id
    (fun h => ⟨fun _ => (register_spec [⟨"a", [], "old", 1, 0⟩] ⟨"b", [], "fresh", 2, 1⟩).2.1 (by decide),
      h.2⟩) |>.imp id id

/-- Modelled from the spec: the Goal record (§3): id, description,
priority, optional deadline, progress in [0,1], tags. -/
structure Goal where
  id : String
  description : String
  priority : ℚ
  deadline : Option String
  progress : ℚ
  tags : List String
deriving DecidableEq, Repr

/-- Clamp a progress value into [0,1] (§4.7, §8 "Monotonic clamp"). -/
def clamp01 (v : ℚ) : ℚ :=
  max 0 (min 1 v)

/-- Whether a goal with the given id exists. -/
def containsGoal (goals : List Goal) (i : String) : Bool :=
  goals.any (fun g => g.id = i)

/-- Modelled from the spec: `update_goal_progress(id, v)` (§4.7): on an
existing goal id store `max(0, min(1, v))`; on an unknown id leave the
goal set unchanged and report a warning (the returned flag) instead of
raising. -/
def update_goal_progress (goals : List Goal) (i : String) (v : ℚ) :
    List Goal × Bool :=
  if containsGoal goals i then
    (goals.map (fun g => if g.id = i then { g with progress := clamp01 v } else g),
      false)
  else (goals, true)

/-- C5.  For every value v, updating an existing goal id stores the
clamped progress `max(0, min(1, v))`, which always lies in [0,1], while
all other goals are untouched; updating a nonexistent id is a non-fatal
no-op that leaves the goal set unchanged and reports a warning flag. -/
theorem update_goal_progress_spec (goals : List Goal) (i : String) (v : ℚ) :
    (containsGoal goals i = true →
      (∀ g ∈ (update_goal_progress goals i v).1,
        (g.id = i → g.progress = max 0 (min 1 v)) ∧
        (g.id ≠ i → g ∈ goals)) ∧
      (update_goal_progress goals i v).2 = false) ∧
    (0 ≤ clamp01 v ∧ clamp01 v ≤ 1) ∧
    (containsGoal goals i = false →
      update_goal_progress goals i v = (goals, true)) := by
  refine ⟨?_, ⟨le_max_left 0 _, max_le (by norm_num) (min_le_left 1 v)⟩, ?_⟩
  · intro h
    unfold update_goal_progress
    rw [if_pos h]
    refine ⟨?_, rfl⟩
    intro g hg
    simp only [List.mem_map] at hg
    rcases hg with ⟨y, hy, hmap⟩
    by_cases hyi : y.id = i
    · rw [if_pos hyi] at hmap
      constructor
      · intro _
        rw [← hmap]
        rfl
      · intro hne
        exact absurd (by rw [← hmap]; exact hyi) hne
    · rw [if_neg hyi] at hmap
      rw [← hmap]
      exact ⟨fun hgi => absurd hgi hyi, fun _ => hy⟩
  · intro h
    unfold update_goal_progress
    rw [if_neg (by simp [h])]

/-- C5 witness: one goal "g"; an update with v = 3/2 stores progress 1
with no warning, and an update to the unknown id "missing" is a warned
no-op. -/
theorem update_goal_progress_spec_witness :
    ((containsGoal [⟨"g", "d", 1, none, 0, []⟩] "g" = true →
      (∀ g ∈ (update_goal_progress [⟨"g", "d", 1, none, 0, []⟩] "g" (3/2)).1,
        (g.id = "g" → g.progress = max 0 (min 1 (3/2))) ∧
        (g.id ≠ "g" → g ∈ [⟨"g", "d", 1, none, 0, []⟩])) ∧
      (update_goal_progress [⟨"g", "d", 1, none, 0, []⟩] "g" (3/2)).2 = false)) ∧
    (containsGoal [⟨"g", "d", 1, none, 0, []⟩] "missing" = false →
      update_goal_progress [⟨"g", "d", 1, none, 0, []⟩] "missing" (3/2) =
        ([⟨"g", "d", 1, none, 0, []⟩], true)) :=
  ⟨(update_goal_progress_spec [⟨"g", "d", 1, none, 0, []⟩] "g" (3/2)).1,
    (update_goal_progress_spec [⟨"g", "d", 1, none, 0, []⟩] "missing" (3/2)).2.2⟩

/-- Modelled from the spec: an embedding-capable backend (§4.3, §4.6):
`querySimilar` returns a ranked sequence of (component, similarityScore). -/
structure EmbeddingBackend where
  querySimilar : String → ℕ → List (Component × ℚ)

/-- Result of `search_similar` (§4.6): the components with their
similarity scores, plus an explicit degraded-mode flag for the case
where no embedding backend is configured. -/
structure SearchResult where
  degraded : Bool
  results : List (Component × ℚ)
deriving DecidableEq

/-- Errors the semantic layer could raise (§7 SemanticUnavailable). -/
inductive SemanticError where
  | semanticUnavailable
deriving DecidableEq, Repr

/-- Modelled from the spec: `search_similar(query, limit)` (§4.6): a
read-only top-`limit` similarity query; when the embedding backend is
absent it fails closed, returning an explicitly-flagged empty result
instead of raising. -/
def search_similar (backend : Option EmbeddingBackend) (query : String)
    (limit : ℕ) : Except SemanticError SearchResult :=
  match backend with
  | none => .ok ⟨true, []⟩
  | some b => .ok ⟨false, (b.querySimilar query limit).take limit⟩

/-- Similarity score the backend assigned to component `c` (zero when
the component was not returned). -/
def simOf (sims : List (Component × ℚ)) (c : Component) : ℚ :=
  match sims.find? (fun p => p.1.id = c.id) with
  | some p => p.2
  | none => 0

/-- Modelled from the spec: the configurable blend of semantic
similarity and feedback score (§4.6), a weighted sum. -/
def blendOf (sims : List (Component × ℚ)) (w : ℚ) (c : Component) : ℚ :=
  w * simOf sims c + (1 - w) * c.score

/-- Ranking relation for the semantic layer: blended score descending,
with the same recency/insertion-order tie-break as the base engine. -/
def blendLE (sims : List (Component × ℚ)) (w : ℚ) (a b : ℕ × Component) : Prop :=
  blendOf sims w b.2 < blendOf sims w a.2 ∨
    (blendOf sims w a.2 = blendOf sims w b.2 ∧
      (b.2.createdAt < a.2.createdAt ∨
        (a.2.createdAt = b.2.createdAt ∧ a.1 ≤ b.1)))

instance (sims : List (Component × ℚ)) (w : ℚ) : DecidableRel (blendLE sims w) := by
  intro a b
  unfold blendLE
  infer_instance

/-- Modelled from the spec: `get_context` extended by the semantic
ranking layer (§4.6): when a query is supplied and an embedding-capable
backend is configured, rank by the blend of similarity and feedback
score; otherwise (backend absent or no query) fall back silently to the
base engine's feedback-score-only ordering. -/
def semantic_get_context (backend : Option EmbeddingBackend) (w : ℚ)
    (summFn : String → ℕ → String) (reg : List Component)
    (query : Option String) (tags : Option (List String))
    (token_budget : ℕ) (allow : Bool) : String :=
  match backend, query with
  | some b, some q =>
    joinParts (selectParts summFn allow token_budget
      ((((candidates tags reg).enum.insertionSort
          (blendLE (b.querySimilar q (candidates tags reg).length) w)).map
            Prod.snd).map Component.text))
  | _, _ => get_context summFn reg tags token_budget allow

/-- C8.  With no embedding-capable backend configured, every semantic
operation fails closed without raising: `semantic_get_context` returns
exactly the base engine's feedback-score-ranked context, and
`search_similar` returns `Except.ok` carrying an explicitly-flagged
(degraded) empty result. -/
theorem semantic_fail_closed (w : ℚ) (summFn : String → ℕ → String)
    (reg : List Component) (query : Option String)
    (tags : Option (List String)) (B : ℕ) (allow : Bool)
    (q : String) (limit : ℕ) :
    semantic_get_context none w summFn reg query tags B allow =
      get_context summFn reg tags B allow ∧
    search_similar none q limit = .ok ⟨true, []⟩ := by
  constructor
  · cases query <;> rfl
  · rfl

/-- Scenario component A (§8): feedback score 0.9, rendering estimated
at 50 tokens (200 characters). -/
def compA : Component :=
  ⟨"A", ["x"], String.mk (List.replicate 200 'a'), 0.9, 0⟩

/-- Scenario component B (§8): feedback score 0.3, rendering estimated
at 50 tokens (200 characters). -/
def compB : Component :=
  ⟨"B", ["x"], String.mk (List.replicate 200 'b'), 0.3, 0⟩

lemma rank_scenario : rankComponents [compA, compB] = [compA, compB] := by
  unfold rankComponents
  have h2 : rankLE (0, compA) (1, compB) := by
    left
    show compB.score < compA.score
    unfold compA compB
    norm_num
  show (List.orderedInsert rankLE (0, compA)
    (List.orderedInsert rankLE (1, compB) [])).map Prod.snd = _
  rw [List.orderedInsert, List.orderedInsert, if_pos h2]
  rfl

lemma select_scenario :
    selectParts naiveSummarize true 50 [compA.text, compB.text] = [compA.text] := by
  have e1 : estimateTokens compA.text = 50 := by
    show (List.replicate 200 'a').length / 4 = 50
    simp
  unfold selectParts
  rw [if_neg (by omega : ¬((50:ℕ) = 0)), if_pos (by simp [e1] : estimateTokens compA.text ≤ 50), e1]
  norm_num
  rfl

/-- C4.  The two-component ranking scenario: with A at score 0.9 and B at
score 0.3, each rendering to 50 estimated tokens, `get_context` with a
token budget of 50 returns output containing A's rendering and not B's. -/
theorem get_context_rank_scenario :
    List.IsInfix compA.text.data
      (get_context naiveSummarize [compA, compB] none 50 true).data ∧
    ¬ List.IsInfix compB.text.data
      (get_context naiveSummarize [compA, compB] none 50 true).data := by
  have hout : get_context naiveSummarize [compA, compB] none 50 true = compA.text := by
    unfold get_context
    rw [show candidates none [compA, compB] = [compA, compB] from rfl, rank_scenario]
    rw [show ([compA, compB].map Component.text) = [compA.text, compB.text] from rfl]
    rw [select_scenario]
    show String.mk (compA.text.data ++ []) = compA.text
    rw [List.append_nil]
  constructor
  · rw [hout]
  · rw [hout]
    intro h
    have hlen : compB.text.data.length = compA.text.data.length := by
      show (List.replicate 200 'b').length = (List.replicate 200 'a').length
      simp
    exact absurd (h.sublist.eq_of_length hlen) (by decide)

/-- C7.  Context selection is deterministic: two calls of the base or
semantic engine on identical inputs return identical text; the ranking
is sorted under `rankLE` (score descending, ties broken by most recent
creation/update time, then insertion order) and is a permutation of the
candidate set (same components, reordered only). -/
theorem get_context_deterministic (summFn : String → ℕ → String)
    (reg : List Component) (tags : Option (List String)) (B : ℕ) (allow : Bool)
    (backend : Option EmbeddingBackend) (w : ℚ) (query : Option String) :
    get_context summFn reg tags B allow = get_context summFn reg tags B allow ∧
    semantic_get_context backend w summFn reg query tags B allow =
      semantic_get_context backend w summFn reg query tags B allow ∧
    List.Sorted rankLE ((candidates tags reg).enum.insertionSort rankLE) ∧
    List.Perm (rankComponents (candidates tags reg)) (candidates tags reg) := by
  refine ⟨rfl, rfl, List.sorted_insertionSort rankLE _, ?_⟩
  have h := (List.perm_insertionSort rankLE (candidates tags reg).enum).map Prod.snd
  rw [List.enum_map_snd] at h
  exact h

/-- Environment behavior of one `requests.get(host + "/api/tags",
timeout=timeout)` call plus the subsequent response handling in
`test_ollama_connectivity.py`: the request either completes with an HTTP
status code and a body whose JSON decoding succeeds (`jsonOk = true`,
yielding the model list) or raises while being decoded (`jsonOk =
false`), or the request itself raises a connection error, a timeout, or
some other exception. -/
inductive HttpResult where
  | success (status : ℕ) (jsonOk : Bool) (models : List String)
  | connectionError
  | timeoutError
  | otherError
deriving DecidableEq, Repr

/-- Embedded from `src/test_ollama_connectivity.py` lines 11-33:
`raise_for_status()` raises for status codes in [400, 600), caught by
the generic handler; `response.json()` raising is caught by the same
handler; every handler returns False; the success path returns True. -/
def test_ollama_connectivity (r : HttpResult) : Bool :=
  match r with
  | .success status jsonOk _ =>
    if 400 ≤ status ∧ status < 600 then false else jsonOk
  | .connectionError => false
  | .timeoutError => false
  | .otherError => false

/-- The success condition as the claim words it: the HTTP GET completed
within the timeout with a non-error status (no condition on the
response-body handling). -/
def completedWithNonErrorStatus : HttpResult → Bool
  | .success status _ _ => decide (status < 400 ∨ 600 ≤ status)
  | _ => false

/-- C9 counterexample: a GET that completes with status 200 but whose
body fails JSON decoding (e.g. a non-Ollama HTTP server at that port):
the claim's condition holds, yet the function returns False because
`response.json()` raises and the generic handler catches it. -/
theorem test_ollama_connectivity_counterexample :
    test_ollama_connectivity (.success 200 false []) = false ∧
    completedWithNonErrorStatus (.success 200 false []) = true := by
  constructor <;> rfl

/-- C9 (amended).  `test_ollama_connectivity` is total over its error
cases and returns a boolean: True exactly when the GET completes within
the timeout with a non-error status and the response-body handling
raises no exception; False — never a propagated exception — on
connection refusal, timeout, HTTP error status, and any other exception
raised during request or response handling. -/
theorem test_ollama_connectivity_spec (r : HttpResult) :
    (test_ollama_connectivity r = true ↔
      ∃ st ms, r = .success st true ms ∧ (st < 400 ∨ 600 ≤ st)) ∧
    test_ollama_connectivity .connectionError = false ∧
    test_ollama_connectivity .timeoutError = false ∧
    test_ollama_connectivity .otherError = false := by
  refine ⟨?_, rfl, rfl, rfl⟩
  cases r with
  | success st j ms =>
    have hred : test_ollama_connectivity (.success st j ms) =
        if 400 ≤ st ∧ st < 600 then false else j := rfl
    rw [hred]
    constructor
    · intro h
      by_cases hs : 400 ≤ st ∧ st < 600
      · rw [if_pos hs] at h
        cases h
      · rw [if_neg hs] at h
        exact ⟨st, ms, by rw [h], by omega⟩
    · rintro ⟨st2, ms2, heq, hst⟩
      injection heq with h1 h2 h3
      subst h1
      rw [h2, if_neg (by omega)]
  | connectionError =>
    simp [test_ollama_connectivity]
  | timeoutError =>
    simp [test_ollama_connectivity]
  | otherError =>
    simp [test_ollama_connectivity]

/-- One simulated research-step result as consumed by
`_extract_insight` (`demo_apps/research_assistant/app.py`): a dict with
keys `significance`, `finding` and `confidence`. -/
structure ResearchResult where
  significance : ℚ
  finding : String
  confidence : ℚ
deriving DecidableEq, Repr

/-- Two-decimal fixed-point rendering of a nonnegative rational,
embedding the f-string's `:.2f` conversion (the rounding mode at exact
half-cents is immaterial to the claims proved here). -/
def format2f (q : ℚ) : String :=
  Nat.repr ((round (q * 100)).toNat / 100) ++ "." ++
    (if (round (q * 100)).toNat % 100 < 10 then "0" else "") ++
    Nat.repr ((round (q * 100)).toNat % 100)

/-- Embedded from `demo_apps/research_assistant/app.py` lines 239-245
(`ResearchAssistant._extract_insight`): significance above 0.8 yields
the key-insight form with the confidence, above 0.7 the notable-finding
form, otherwise None. -/
def extract_insight (result : ResearchResult) (topic : String) : Option String :=
  if (0.8 : ℚ) < result.significance then
    some ("Key insight about " ++ topic ++ ": " ++ result.finding ++
      " (Confidence: " ++ format2f result.confidence ++ ")")
  else if (0.7 : ℚ) < result.significance then
    some ("Notable finding about " ++ topic ++ ": " ++ result.finding)
  else none

/-- C10.  `_extract_insight` returns a non-None string exactly when the
result's significance exceeds 0.7: above 0.8 it is the key-insight form
including the formatted confidence, in (0.7, 0.8] the notable-finding
form, and at or below 0.7 it is None. -/
theorem extract_insight_spec (r : ResearchResult) (topic : String) :
    ((extract_insight r topic).isSome ↔ (0.7 : ℚ) < r.significance) ∧
    ((0.8 : ℚ) < r.significance →
      extract_insight r topic = some ("Key insight about " ++ topic ++ ": " ++
        r.finding ++ " (Confidence: " ++ format2f r.confidence ++ ")")) ∧
    ((0.7 : ℚ) < r.significance ∧ r.significance ≤ (0.8 : ℚ) →
      extract_insight r topic =
        some ("Notable finding about " ++ topic ++ ": " ++ r.finding)) ∧
    (r.significance ≤ (0.7 : ℚ) → extract_insight r topic = none) := by
  unfold extract_insight
  by_cases h8 : (0.8 : ℚ) < r.significance
  · rw [if_pos h8]
    refine ⟨⟨fun _ => by linarith, fun _ => rfl⟩, fun _ => rfl, ?_, ?_⟩
    · rintro ⟨-, hle⟩
      linarith
    · intro hle
      linarith
  · rw [if_neg h8]
    by_cases h7 : (0.7 : ℚ) < r.significance
    · rw [if_pos h7]
      refine ⟨⟨fun _ => h7, fun _ => rfl⟩, fun h => absurd h h8, fun _ => rfl, ?_⟩
      intro hle
      linarith
    · rw [if_neg h7]
      refine ⟨⟨(fun h => nomatch h), fun h => absurd h h7⟩,
        fun h => absurd h h8, ?_, fun _ => rfl⟩
      rintro ⟨h, -⟩
      exact absurd h h7

/-- C10 witness: at significance 0.9 the key-insight form is returned;
at significance 0.5 the call returns None. -/
theorem extract_insight_spec_witness :
    extract_insight ⟨9/10, "f", 3/4⟩ "t" =
      some ("Key insight about " ++ "t" ++ ": " ++ "f" ++
        " (Confidence: " ++ format2f (3/4) ++ ")") ∧
    extract_insight ⟨1/2, "f", 3/4⟩ "t" = none :=
  ⟨(extract_insight_spec ⟨9/10, "f", 3/4⟩ "t").2.1 (by norm_num),
    (extract_insight_spec ⟨1/2, "f", 3/4⟩ "t").2.2.2 (by norm_num)⟩
